import Mathlib

/-!
# `scripts/convert_blocknote.mjs`: the per-line handler

The script registers one callback on the line reader.  The callback is
embedded here as `handler`, a pure function from the host capabilities it
calls (`JSON.parse`, `blocksToYDoc`, `Y.encodeStateAsUpdate`) and the input
line to the trace of effects it performs and the exception, if any, that
leaves it.

JavaScript strings are modelled as lists of characters: standard input is
decoded UTF-8, so every line is a sequence of Unicode scalar values.
-/

namespace ConvertBlocknote

/-- A JavaScript string. -/
abbrev Str := List Char

/-- A JavaScript number, seen through the two observations the script makes
of it: whether it is falsy (`+0` or `-0`; `NaN` is not a JSON value) and its
`ToString` image. -/
structure JNum where
  isZero : Bool
  text : Str

/-- The JavaScript values the script handles: what `JSON.parse` returns, and
`undefined` for a property that is not there.  An object is the list of its
members in source order. -/
inductive JVal where
  | undefined : JVal
  | null : JVal
  | bool (b : Bool) : JVal
  | num (n : JNum) : JVal
  | str (s : Str) : JVal
  | arr (items : List JVal) : JVal
  | obj (members : List (Str × JVal)) : JVal

/-- The capabilities of the host and of the document-model library that the
script calls and does not define.  A failing call carries the `message` of
the error it throws. -/
structure Host where
  /-- The type of Yjs documents. -/
  Doc : Type
  /-- The function `JSON.parse` on a string. -/
  jsonParse : Str → Except Str JVal
  /-- The call `blocksToYDoc(editor, blocks, "document-store")`. -/
  blocksToYDoc : JVal → Except Str Doc
  /-- The call `Y.encodeStateAsUpdate(doc)`, the bytes of the update. -/
  encodeStateAsUpdate : Doc → Except Str (List Nat)
  /-- Message of the `TypeError` thrown when `null` is destructured. -/
  destructureNullMessage : Str
  /-- Message of the `TypeError` thrown when a property of `null` is read. -/
  readNullMessage : Str
  /-- Message of the `TypeError` thrown when an object has no primitive value. -/
  toPrimitiveMessage : Str

/-! ## String primitives -/

/-- The double quote character. -/
def dq : Char := Char.ofNat 34

/-- The `WhiteSpace` and `LineTerminator` code points, the ones `trim` removes. -/
def isJsSpace (c : Char) : Bool :=
  let n := c.toNat
  n = 0x09 || n = 0x0A || n = 0x0B || n = 0x0C || n = 0x0D || n = 0x20 ||
  n = 0xA0 || n = 0x1680 || (0x2000 ≤ n && n ≤ 0x200A) || n = 0x2028 ||
  n = 0x2029 || n = 0x202F || n = 0x205F || n = 0x3000 || n = 0xFEFF

/-- The method `String.prototype.trim`. -/
def trim (s : Str) : Str :=
  ((s.dropWhile isJsSpace).reverse.dropWhile isJsSpace).reverse

/-- Whether `s` begins with `pat`. -/
def startsWith : Str → Str → Bool
  | _, [] => true
  | [], _ :: _ => false
  | c :: s, p :: pat => c = p && startsWith s pat

/-- The method `String.prototype.includes`. -/
def includes : Str → Str → Bool
  | [], pat => startsWith [] pat
  | c :: s, pat => startsWith (c :: s) pat || includes s pat

/-- The search string of the catch block, `"id"` with its double quotes. -/
def quotedId : Str := [dq, 'i', 'd', dq]

/-- One lowercase hexadecimal digit. -/
def hexDigit (n : Nat) : Char :=
  if n % 16 < 10 then Char.ofNat (48 + n % 16) else Char.ofNat (87 + n % 16)

/-- The conversion `Buffer.from(update).toString('hex')`: two digits per byte. -/
def toHex : List Nat → Str
  | [] => []
  | b :: bs => hexDigit (b % 256 / 16) :: hexDigit (b % 256) :: toHex bs

/-! ## Value primitives -/

/-- Whether an object has a member with the given key. -/
def hasMember (key : Str) : List (Str × JVal) → Bool
  | [] => false
  | (k, _) :: rest => k = key || hasMember key rest

/-- Value of the last member of an object with the given key (of duplicate
keys `JSON.parse` keeps the last), `undefined` when there is none. -/
def lookupMember (key : Str) : List (Str × JVal) → JVal
  | [] => JVal.undefined
  | (k, v) :: rest =>
    if hasMember key rest then lookupMember key rest
    else if k = key then v else JVal.undefined

/-- Property read `v[key]` for the keys `id` and `description`, on a value that
is neither `null` nor `undefined`: primitives and arrays have no such
property. -/
def getProp (key : Str) : JVal → JVal
  | JVal.obj members => lookupMember key members
  | _ => JVal.undefined

/-- The abstract operation `ToBoolean`. -/
def truthy : JVal → Bool
  | JVal.undefined => false
  | JVal.null => false
  | JVal.bool b => b
  | JVal.num n => !n.isZero
  | JVal.str s => !s.isEmpty
  | JVal.arr _ => true
  | JVal.obj _ => true

/-- The name of the method `ToPrimitive` looks up first. -/
def toStringKey : Str := "toString".toList

mutual
/-- The abstract operation `ToString`, as applied by a template literal and by `JSON.parse` to its
argument.  A parsed object prints as `[object Object]` unless a member
shadows `toString`, in which case no primitive value exists and a `TypeError`
is thrown; an array is the `join` of its elements. -/
def toStr (msg : Str) : JVal → Except Str Str
  | JVal.undefined => .ok "undefined".toList
  | JVal.null => .ok "null".toList
  | JVal.bool true => .ok "true".toList
  | JVal.bool false => .ok "false".toList
  | JVal.num n => .ok n.text
  | JVal.str s => .ok s
  | JVal.arr items => joinItems msg items
  | JVal.obj members =>
    if hasMember toStringKey members then .error msg else .ok "[object Object]".toList
/-- The method `Array.prototype.join` with the default separator: `null` and `undefined`
elements print as the empty string. -/
def joinItems (msg : Str) : List JVal → Except Str Str
  | [] => .ok []
  | v :: rest =>
    let first : Except Str Str :=
      match v with
      | JVal.undefined => .ok []
      | JVal.null => .ok []
      | JVal.bool b => toStr msg (JVal.bool b)
      | JVal.num n => toStr msg (JVal.num n)
      | JVal.str s => toStr msg (JVal.str s)
      | JVal.arr items => toStr msg (JVal.arr items)
      | JVal.obj members => toStr msg (JVal.obj members)
    match first with
    | .error e => .error e
    | .ok s =>
      match rest with
      | [] => .ok s
      | _ :: _ =>
        match joinItems msg rest with
        | .error e => .error e
        | .ok t => .ok (s ++ ',' :: t)
end

/-! ## Effects -/

/-- What the handler does to the outside world, in the order it does it. -/
inductive Event where
  | parse (text : Str) : Event
  | convert (blocks : JVal) : Event
  | encode : Event
  | stdout (text : Str) : Event
  | stderr (text : Str) : Event

/-- A fragment of the handler: the events it performed and either its value or
the message of the exception it threw. -/
structure Eff (α : Type) where
  trace : List Event
  result : Except Str α

/-- A fragment that performs nothing and returns `a`. -/
def Eff.pure {α : Type} (a : α) : Eff α := ⟨[], .ok a⟩

/-- Sequencing: an exception in the first fragment skips the second. -/
def Eff.bind {α β : Type} (m : Eff α) (f : α → Eff β) : Eff β :=
  match m.result with
  | .error e => ⟨m.trace, .error e⟩
  | .ok a => ⟨m.trace ++ (f a).trace, (f a).result⟩

instance : Monad Eff where
  pure := Eff.pure
  bind := Eff.bind

/-- A computation of the language itself, which leaves no event. -/
def Eff.lift {α : Type} (r : Except Str α) : Eff α := ⟨[], r⟩

/-- A call that is recorded, whether it returns or throws. -/
def Eff.call {α : Type} (ev : Event) (r : Except Str α) : Eff α := ⟨[ev], r⟩

/-- The call `process.stdout.write(text)`. -/
def writeStdout (text : Str) : Eff Unit := ⟨[Event.stdout text], .ok ()⟩

/-- The call `process.stderr.write(text)`. -/
def writeStderr (text : Str) : Eff Unit := ⟨[Event.stderr text], .ok ()⟩

/-- Everything written to standard output, concatenated. -/
def stdoutOf : List Event → Str
  | [] => []
  | Event.stdout text :: rest => text ++ stdoutOf rest
  | _ :: rest => stdoutOf rest

/-- Everything written to standard error, concatenated. -/
def stderrOf : List Event → Str
  | [] => []
  | Event.stderr text :: rest => text ++ stderrOf rest
  | _ :: rest => stderrOf rest

/-- Whether an event is a write to one of the two output streams. -/
def Event.isWrite : Event → Bool
  | Event.stdout _ => true
  | Event.stderr _ => true
  | _ => false

/-- The writes of a trace, in order. -/
def writesOf (trace : List Event) : List Event := trace.filter Event.isWrite

/-! ## The handler -/

/-- The pattern `const { id, description } = value`: `null` and `undefined`
cannot be destructured. -/
def destructure (H : Host) : JVal → Except Str (JVal × JVal)
  | JVal.null => .error H.destructureNullMessage
  | JVal.undefined => .error H.destructureNullMessage
  | v => .ok (getProp "id".toList v, getProp "description".toList v)

/-- The member access `value.id`. -/
def readId (H : Host) : JVal → Except Str JVal
  | JVal.null => .error H.readNullMessage
  | JVal.undefined => .error H.readNullMessage
  | v => .ok (getProp "id".toList v)

/-- Lines 27 to 30: the description is read as JSON, turned into a document
and encoded; the value is the hexadecimal text of the update. -/
def encodeDescription (H : Host) (description : JVal) : Eff Str := do
  let source ← Eff.lift (toStr H.toPrimitiveMessage description)
  let blocks ← Eff.call (Event.parse source) (H.jsonParse source)
  let doc ← Eff.call (Event.convert blocks) (H.blocksToYDoc blocks)
  let update ← Eff.call Event.encode (H.encodeStateAsUpdate doc)
  Eff.pure (toHex update)

/-- The body of the `try` block, lines 21 to 32. -/
def tryBlock (H : Host) (line : Str) : Eff Unit := do
  let parsed ← Eff.call (Event.parse line) (H.jsonParse line)
  let (id, description) ← Eff.lift (destructure H parsed)
  if !truthy description then
    let idText ← Eff.lift (toStr H.toPrimitiveMessage id)
    writeStdout (idText ++ ":EMPTY\n".toList)
  else
    let hex ← encodeDescription H description
    let idText ← Eff.lift (toStr H.toPrimitiveMessage id)
    writeStdout (idText ++ ':' :: hex ++ ['\n'])

/-- The body of the `catch` block, lines 35 to 37; `message` is `e.message`. -/
def catchBlock (H : Host) (line : Str) (message : Str) : Eff Unit := do
  let errorId ←
    if includes line quotedId then do
      let parsed ← Eff.call (Event.parse line) (H.jsonParse line)
      Eff.lift (readId H parsed)
    else
      Eff.pure (JVal.str "unknown".toList)
  let shown ← Eff.lift (toStr H.toPrimitiveMessage errorId)
  writeStderr ("Error on story ".toList ++ shown ++ ": ".toList ++ message ++ ['\n'])
  let shown ← Eff.lift (toStr H.toPrimitiveMessage errorId)
  writeStdout (shown ++ ":ERROR\n".toList)

/-- The outcome of one invocation of the handler: the events performed and
the message of the exception that escaped it, if one did. -/
structure Outcome where
  trace : List Event
  uncaught : Option Str

/-- The callback of `rl.on('line', ...)`, lines 18 to 39. -/
def handler (H : Host) (line : Str) : Outcome :=
  if (trim line).isEmpty then ⟨[], none⟩
  else
    let attempt := tryBlock H line
    match attempt.result with
    | .ok _ => ⟨attempt.trace, none⟩
    | .error message =>
      let recovery := catchBlock H line message
      match recovery.result with
      | .ok _ => ⟨attempt.trace ++ recovery.trace, none⟩
      | .error escaped => ⟨attempt.trace ++ recovery.trace, some escaped⟩

/-- The line reader delivering the lines of standard input one after the
other: the handler runs to completion on each, and an exception that escapes
it terminates the process, so the remaining lines are not delivered. -/
def run (H : Host) : List Str → Outcome
  | [] => ⟨[], none⟩
  | line :: rest =>
    match (handler H line).uncaught with
    | some escaped => ⟨(handler H line).trace, some escaped⟩
    | none => ⟨(handler H line).trace ++ (run H rest).trace, (run H rest).uncaught⟩

/-! ## A reference host

The theorems below hold for every host.  Concrete runs need one: `refHost`
reads JSON by the grammar of ECMA-404, as `JSON.parse` does, and stands in
for the document library with a recogniser of block arrays.
-/

/-- The backslash character. -/
def bs : Char := Char.ofNat 92

/-- JSON insignificant whitespace. -/
def isJsonWs (c : Char) : Bool :=
  c = ' ' || c = '\t' || c = '\n' || c = '\r'

/-- Drop leading JSON whitespace. -/
def skipWs : Str → Str
  | [] => []
  | c :: rest => if isJsonWs c then skipWs rest else c :: rest

/-- Value of a hexadecimal digit. -/
def hexValue (c : Char) : Option Nat :=
  let n := c.toNat
  if 48 ≤ n ∧ n ≤ 57 then some (n - 48)
  else if 97 ≤ n ∧ n ≤ 102 then some (n - 87)
  else if 65 ≤ n ∧ n ≤ 70 then some (n - 55)
  else none

/-- The UTF-16 code units of a character. -/
def codeUnits (c : Char) : List Nat :=
  if c.toNat < 0x10000 then [c.toNat]
  else [0xD800 + (c.toNat - 0x10000) / 0x400, 0xDC00 + (c.toNat - 0x10000) % 0x400]

/-- Characters of a sequence of UTF-16 code units; a surrogate without its
partner becomes U+FFFD, as it does when the string is written out. -/
def decodeUnits : List Nat → Str
  | [] => []
  | [u] => [if 0xD800 ≤ u ∧ u ≤ 0xDFFF then Char.ofNat 0xFFFD else Char.ofNat u]
  | u :: v :: rest =>
    if 0xD800 ≤ u ∧ u ≤ 0xDBFF ∧ 0xDC00 ≤ v ∧ v ≤ 0xDFFF then
      Char.ofNat (0x10000 + (u - 0xD800) * 0x400 + (v - 0xDC00)) :: decodeUnits rest
    else if 0xD800 ≤ u ∧ u ≤ 0xDFFF then Char.ofNat 0xFFFD :: decodeUnits (v :: rest)
    else Char.ofNat u :: decodeUnits (v :: rest)

/-- The code units of a string token, read from just after its opening
quote, and the input that follows its closing quote. -/
def readStringBody : Nat → Str → Option (List Nat × Str)
  | 0, _ => none
  | _ + 1, [] => none
  | fuel + 1, c :: rest =>
    if c = dq then some ([], rest)
    else if c = bs then
      match rest with
      | 'u' :: a :: b :: c3 :: d :: rest4 =>
        match hexValue a, hexValue b, hexValue c3, hexValue d with
        | some x, some y, some z, some w =>
          match readStringBody fuel rest4 with
          | some (units, after) => some ((((x * 16 + y) * 16 + z) * 16 + w) :: units, after)
          | none => none
        | _, _, _, _ => none
      | e :: rest1 =>
        let unit : Option Nat :=
          if e = dq then some 34 else if e = bs then some 92 else if e = '/' then some 47
          else if e = 'b' then some 8 else if e = 'f' then some 12 else if e = 'n' then some 10
          else if e = 'r' then some 13 else if e = 't' then some 9 else none
        match unit with
        | some u =>
          match readStringBody fuel rest1 with
          | some (units, after) => some (u :: units, after)
          | none => none
        | none => none
      | [] => none
    else if c.toNat < 0x20 then none
    else
      match readStringBody fuel rest with
      | some (units, after) => some (codeUnits c ++ units, after)
      | none => none

/-- A string token read from just after its opening quote. -/
def readString (input : Str) : Option (Str × Str) :=
  match readStringBody (input.length + 1) input with
  | some (units, after) => some (decodeUnits units, after)
  | none => none

/-- Split off the leading decimal digits. -/
def spanDigits : Str → Str × Str
  | [] => ([], [])
  | c :: rest =>
    if c.isDigit then ((spanDigits rest).1.cons c, (spanDigits rest).2) else ([], c :: rest)

/-- The text of a number token at the head of the input, and what follows it. -/
def readNumberText (input : Str) : Option (Str × Str) :=
  let (sign, afterSign) : Str × Str :=
    match input with
    | '-' :: rest => (['-'], rest)
    | other => ([], other)
  let (intDigits, afterInt) := spanDigits afterSign
  let intOk : Bool :=
    match intDigits with
    | [] => false
    | ['0'] => true
    | '0' :: _ => false
    | _ => true
  if !intOk then none else
  let fraction : Option (Str × Str) :=
    match afterInt with
    | '.' :: rest =>
      let (digits, after) := spanDigits rest
      if digits.isEmpty then none else some ('.' :: digits, after)
    | other => some ([], other)
  match fraction with
  | none => none
  | some (fracText, afterFrac) =>
    let exponent : Option (Str × Str) :=
      match afterFrac with
      | e :: rest =>
        if e = 'e' || e = 'E' then
          let (expSign, afterExpSign) : Str × Str :=
            match rest with
            | '+' :: r => (['+'], r)
            | '-' :: r => (['-'], r)
            | other => ([], other)
          let (digits, after) := spanDigits afterExpSign
          if digits.isEmpty then none else some (e :: expSign ++ digits, after)
        else some ([], e :: rest)
      | [] => some ([], [])
    match exponent with
    | none => none
    | some (expText, afterExp) => some (sign ++ intDigits ++ fracText ++ expText, afterExp)

/-- Value of a run of decimal digits. -/
def digitsValue (digits : Str) : Nat :=
  digits.foldl (fun acc c => acc * 10 + (c.toNat - 48)) 0

/-- A number token as sign, coefficient and power of ten: the token denotes
`coefficient * 10 ^ exponent`, negated when `negative`. -/
structure Decimal where
  negative : Bool
  coefficient : Nat
  exponent : Int

/-- The decimal a number token denotes. -/
def readDecimal (token : Str) : Decimal :=
  let negative := token.head? == some '-'
  let body := if negative then token.drop 1 else token
  let (intDigits, afterInt) := spanDigits body
  let (fracDigits, afterFrac) : Str × Str :=
    match afterInt with
    | '.' :: rest => spanDigits rest
    | other => ([], other)
  let power : Int :=
    match afterFrac with
    | [] => 0
    | _ :: '-' :: digits => -(digitsValue digits : Int)
    | _ :: '+' :: digits => (digitsValue digits : Int)
    | _ :: digits => (digitsValue digits : Int)
  { negative := negative
    coefficient := digitsValue (intDigits ++ fracDigits)
    exponent := power - (fracDigits.length : Int) }

/-- A non-negative double: `mantissa * 2 ^ exponent`, or infinity. -/
inductive Dbl where
  | finite (mantissa : Nat) (exponent : Int) : Dbl
  | infinite : Dbl
deriving DecidableEq

/-- Whether `base ^ j ≤ num / den`, for positive `den`. -/
def powLe (base : Nat) (j : Int) (num den : Nat) : Bool :=
  if 0 ≤ j then decide (den * base ^ j.toNat ≤ num) else decide (den ≤ num * base ^ (-j).toNat)

/-- The double nearest to `num / den` (both positive), ties to even: 53 bits
of precision, exponents from -1074, overflow to infinity. -/
def roundToDouble (num den : Nat) : Dbl :=
  let guess : Int := (Nat.log2 num : Int) - (Nat.log2 den : Int)
  let e : Int := if powLe 2 guess num den then guess else guess - 1
  let t : Int := max (e - 52) (-1074)
  let scaledNum := if t < 0 then num * 2 ^ (-t).toNat else num
  let scaledDen := if t < 0 then den else den * 2 ^ t.toNat
  let q := scaledNum / scaledDen
  let r := scaledNum % scaledDen
  let n :=
    if scaledDen < 2 * r then q + 1
    else if 2 * r = scaledDen then (if q % 2 = 0 then q else q + 1)
    else q
  if 971 < t ∨ (t = 971 ∧ 2 ^ 53 ≤ n) then Dbl.infinite
  else if n = 2 ^ 53 then Dbl.finite (2 ^ 52) (t + 1)
  else Dbl.finite n t

/-- Drop trailing zeros. -/
def stripZeros (digits : Str) : Str :=
  (digits.reverse.dropWhile (fun c => c == '0')).reverse

/-- The digits and the decimal exponent `n` of the shortest decimal that reads
back as the positive double `mantissa * 2 ^ exponent`, the one nearest to it
when several have that length: the `s` and `n` of `Number::toString`. -/
def shortestDigits (mantissa : Nat) (exponent : Int) : Str × Int :=
  let xn := if exponent < 0 then mantissa else mantissa * 2 ^ exponent.toNat
  let xd := if exponent < 0 then 2 ^ (-exponent).toNat else 1
  let a : Int := ((Nat.toDigits 10 xn).length : Int) - ((Nat.toDigits 10 xd).length : Int)
  let n : Int := if powLe 10 a xn xd then a + 1 else a
  let pick (k : Nat) : Option (Str × Int) :=
    let shift : Int := (k : Int) - n
    let num := if shift < 0 then xn else xn * 10 ^ shift.toNat
    let den := if shift < 0 then xd * 10 ^ (-shift).toNat else xd
    let low := num / den
    let r := num % den
    let back (c : Nat) : Bool :=
      decide (0 < c) &&
      decide (roundToDouble (if shift < 0 then c * 10 ^ (-shift).toNat else c)
        (if shift < 0 then 1 else 10 ^ shift.toNat) = Dbl.finite mantissa exponent)
    let lowFirst : Bool := decide (2 * r < den) || (decide (2 * r = den) && decide (low % 2 = 0))
    let chosen : Option Nat :=
      if back low && back (low + 1) then some (if lowFirst then low else low + 1)
      else if back low then some low
      else if back (low + 1) then some (low + 1)
      else none
    match chosen with
    | none => none
    | some c =>
      let digits := Nat.toDigits 10 c
      some (stripZeros digits, n + ((digits.length : Int) - (k : Int)))
  match (List.range 17).findSome? (fun i => pick (i + 1)) with
  | some found => found
  | none => (Nat.toDigits 10 mantissa, n)

/-- The text of `n` zeros. -/
def zeros (n : Nat) : Str := List.replicate n '0'

/-- The layout of `Number::toString` for digits `s` and decimal exponent `n`. -/
def layoutNumber (digits : Str) (n : Int) : Str :=
  let k : Int := digits.length
  if k ≤ n ∧ n ≤ 21 then digits ++ zeros (n - k).toNat
  else if 0 < n ∧ n ≤ 21 then digits.take n.toNat ++ '.' :: digits.drop n.toNat
  else if -6 < n ∧ n ≤ 0 then '0' :: '.' :: zeros (-n).toNat ++ digits
  else
    let e : Int := n - 1
    let power : Str := (if e < 0 then '-' else '+') :: Nat.toDigits 10 e.natAbs
    match digits with
    | [d] => d :: 'e' :: power
    | d :: more => d :: '.' :: more ++ 'e' :: power
    | [] => []

/-- The number a token denotes, as `JSON.parse` reads it: the nearest double,
observed through its truthiness and its `ToString` image. -/
def readNumber (token : Str) : JNum :=
  let dec := readDecimal token
  if dec.coefficient = 0 then { isZero := true, text := ['0'] }
  else
    let num := if dec.exponent < 0 then dec.coefficient else dec.coefficient * 10 ^ dec.exponent.toNat
    let den := if dec.exponent < 0 then 10 ^ (-dec.exponent).toNat else 1
    let sign : Str := if dec.negative then ['-'] else []
    match roundToDouble num den with
    | Dbl.infinite => { isZero := false, text := sign ++ "Infinity".toList }
    | Dbl.finite 0 _ => { isZero := true, text := ['0'] }
    | Dbl.finite (m + 1) t =>
      let (digits, n) := shortestDigits (m + 1) t
      { isZero := false, text := sign ++ layoutNumber digits n }

mutual
/-- One JSON value at the head of the input, after optional whitespace. -/
def readValue : Nat → Str → Option (JVal × Str)
  | 0, _ => none
  | fuel + 1, input =>
    match skipWs input with
    | 'n' :: 'u' :: 'l' :: 'l' :: rest => some (JVal.null, rest)
    | 't' :: 'r' :: 'u' :: 'e' :: rest => some (JVal.bool true, rest)
    | 'f' :: 'a' :: 'l' :: 's' :: 'e' :: rest => some (JVal.bool false, rest)
    | '[' :: rest =>
      match skipWs rest with
      | ']' :: after => some (JVal.arr [], after)
      | _ =>
        match readItems fuel rest with
        | some (items, after) => some (JVal.arr items, after)
        | none => none
    | '{' :: rest =>
      match skipWs rest with
      | '}' :: after => some (JVal.obj [], after)
      | _ =>
        match readMembers fuel rest with
        | some (members, after) => some (JVal.obj members, after)
        | none => none
    | c :: rest =>
      if c = dq then
        match readString rest with
        | some (text, after) => some (JVal.str text, after)
        | none => none
      else
        match readNumberText (c :: rest) with
        | some (token, after) => some (JVal.num (readNumber token), after)
        | none => none
    | [] => none
/-- The elements of a non-empty array, up to and including its `]`. -/
def readItems : Nat → Str → Option (List JVal × Str)
  | 0, _ => none
  | fuel + 1, input =>
    match readValue fuel input with
    | none => none
    | some (item, after) =>
      match skipWs after with
      | ',' :: more =>
        match readItems fuel more with
        | some (items, final) => some (item :: items, final)
        | none => none
      | ']' :: final => some ([item], final)
      | _ => none
/-- The members of a non-empty object, up to and including its `}`. -/
def readMembers : Nat → Str → Option (List (Str × JVal) × Str)
  | 0, _ => none
  | fuel + 1, input =>
    match skipWs input with
    | q :: afterQuote =>
      if q = dq then
        match readString afterQuote with
        | none => none
        | some (key, afterKey) =>
          match skipWs afterKey with
          | ':' :: afterColon =>
            match readValue fuel afterColon with
            | none => none
            | some (value, after) =>
              match skipWs after with
              | ',' :: more =>
                match readMembers fuel more with
                | some (members, final) => some ((key, value) :: members, final)
                | none => none
              | '}' :: final => some ([(key, value)], final)
              | _ => none
          | _ => none
      else none
    | [] => none
end

/-- The message of the `SyntaxError` of the reference host; hosts word it
differently. -/
def parseErrorMessage : Str := "Unexpected token in JSON".toList

/-- The function `JSON.parse` of the reference host: one value, surrounded by optional
whitespace, and nothing else. -/
def refParse (text : Str) : Except Str JVal :=
  match readValue (2 * text.length + 2) text with
  | some (value, after) =>
    match skipWs after with
    | [] => .ok value
    | _ :: _ => .error parseErrorMessage
  | none => .error parseErrorMessage

/-- The reference host.  The document library is external to the script, so
a stand-in takes its place here: it accepts an array of blocks and encodes the
document as the number of blocks followed by a zero byte.  The texts of the
three `TypeError` messages are likewise stand-ins for the wording of the host. -/
def refHost : Host where
  Doc := List JVal
  jsonParse := refParse
  blocksToYDoc := fun blocks =>
    match blocks with
    | JVal.arr items => .ok items
    | _ => .error "blocks is not iterable".toList
  encodeStateAsUpdate := fun doc => .ok [doc.length % 256, 0]
  destructureNullMessage := "Cannot destructure property of null".toList
  readNullMessage := "Cannot read properties of null".toList
  toPrimitiveMessage := "Cannot convert object to primitive value".toList

/-! ## Observations and sample lines -/

/-- The characters of the class `[0-9a-f]`. -/
def lowerHexChars : Str := "0123456789abcdef".toList

/-- The regular expression `^[0-9a-f]+$`. -/
def matchesLowerHex (s : Str) : Bool :=
  !s.isEmpty && s.all (fun c => lowerHexChars.contains c)

/-- The second scenario line of the specification, `{"id":"b2","description":"[...]"}`. -/
def sampleBlockLine : Str :=
  "\x7b\"id\":\"b2\",\"description\":\"[\x7b\\\"type\\\":\\\"paragraph\\\",\\\"content\\\":\\\"hi\\\"\x7d]\"\x7d".toList

/-- The description of `sampleBlockLine`. -/
def sampleBlockText : Str := "[\x7b\"type\":\"paragraph\",\"content\":\"hi\"\x7d]".toList

/-- The blocks of `sampleBlockLine`. -/
def sampleBlocks : List JVal :=
  [JVal.obj [("type".toList, JVal.str "paragraph".toList),
    ("content".toList, JVal.str "hi".toList)]]

/-- The line `{"\u0069d":"a1","description":"x"}`: its `id` key is written
with an escape, so the text `"id"` does not occur in it. -/
def escapedIdLine : Str := "\x7b\"\\u0069d\":\"a1\",\"description\":\"x\"\x7d".toList

/-- The line `{"id":"a\nb","description":null}`, whose `id` holds a newline
(written as the JSON escape `\n`). -/
def newlineIdLine : Str := "\x7b\"id\":\"a\\nb\",\"description\":null\x7d".toList

/-- The payload of an output line: the text between its last `:` and its
final character, the newline. -/
def payloadOf (text : Str) : Str :=
  ((text.reverse.drop 1).takeWhile (fun c => c != ':')).reverse

/-- The first scenario line of the specification. -/
def sampleNullLine : Str := "\x7b\"id\":\"a1\",\"description\":null\x7d".toList

/-- The line `{"id":{"toString":1},"description":null}`: its `id` is an
object with a member named `toString`, which is not a function. -/
def objectIdNullLine : Str :=
  "\x7b\"id\":\x7b\"toString\":1\x7d,\"description\":null\x7d".toList

/-- The line `{"id":{"toString":1},"description":"[]"}`. -/
def objectIdBlocksLine : Str :=
  "\x7b\"id\":\x7b\"toString\":1\x7d,\"description\":\"[]\"\x7d".toList

/-- The `id` of `objectIdNullLine` and `objectIdBlocksLine`, as parsed. -/
def objectId : JVal := JVal.obj [("toString".toList, JVal.num (readNumber ['1']))]

/-- The line `{"id":"a1","description":"x"}`: its description is not JSON. -/
def badDescriptionLine : Str :=
  "\x7b\"id\":\"a1\",\"description\":\"x\"\x7d".toList

/-- The line `{"\u0069d":{"toString":1},"description":"x"}`: the `id` key is
written with an escape and the `id` is an object without a string form. -/
def escapedObjectIdLine : Str :=
  "\x7b\"\\u0069d\":\x7b\"toString\":1\x7d,\"description\":\"x\"\x7d".toList

/-- A line cut short, `{"id":"a1"`: not JSON, and holding the text `"id"`. -/
def truncatedLine : Str := "\x7b\"id\":\"a1\"".toList

/-- Another line cut short, `{"id":"s9","description":`. -/
def unfinishedLine : Str := "\x7b\"id\":\"s9\",\"description\":".toList

/-! ## The shape of an invocation

Every path through the handler, told by its writes and by whether an
exception leaves it.
-/

theorem Eff.bind_eq {α β : Type} (m : Eff α) (f : α → Eff β) : (m >>= f) = Eff.bind m f := rfl

theorem writesOf_nil : writesOf [] = [] := rfl

theorem writesOf_cons (e : Event) (t : List Event) :
    writesOf (e :: t) = if e.isWrite then e :: writesOf t else writesOf t := by
  simp only [writesOf, List.filter_cons]

theorem writesOf_append (a b : List Event) : writesOf (a ++ b) = writesOf a ++ writesOf b := by
  simp [writesOf]

theorem encodeDescription_writes (H : Host) (d : JVal) :
    writesOf (encodeDescription H d).trace = [] ∧
    ∀ hex, (encodeDescription H d).result = .ok hex → ∃ u, hex = toHex u := by
  simp only [encodeDescription, Eff.bind_eq, Eff.bind, Eff.call, Eff.lift, Eff.pure]
  cases toStr H.toPrimitiveMessage d with
  | error e => simp [writesOf_nil]
  | ok src =>
    simp only []
    cases H.jsonParse src with
    | error e => simp [writesOf_nil, writesOf_cons, writesOf_append, Event.isWrite]
    | ok blocks =>
      simp only []
      cases H.blocksToYDoc blocks with
      | error e => simp [writesOf_nil, writesOf_cons, writesOf_append, Event.isWrite]
      | ok doc =>
        simp only []
        cases H.encodeStateAsUpdate doc with
        | error e => simp [writesOf_nil, writesOf_cons, writesOf_append, Event.isWrite]
        | ok u => simp [writesOf_nil, writesOf_cons, writesOf_append, Event.isWrite]

theorem emptyText_eq : ":EMPTY\n".toList = ':' :: "EMPTY".toList ++ ['\n'] := by decide

theorem tryBlock_shape (H : Host) (line : Str) :
    ((∃ m, (tryBlock H line).result = .error m) ∧ writesOf (tryBlock H line).trace = []) ∨
    ((tryBlock H line).result = .ok () ∧
      ∃ v label payload, H.jsonParse line = .ok v ∧
        toStr H.toPrimitiveMessage (getProp "id".toList v) = .ok label ∧
        (payload = "EMPTY".toList ∨ ∃ u, payload = toHex u) ∧
        writesOf (tryBlock H line).trace = [Event.stdout (label ++ ':' :: payload ++ ['\n'])]) := by
  have henc := fun d => encodeDescription_writes H d
  simp only [tryBlock, Eff.bind_eq, Eff.bind, Eff.call, Eff.lift, writeStdout]
  cases h1 : H.jsonParse line with
  | error e => simp [writesOf_nil, writesOf_cons, Event.isWrite]
  | ok v =>
    simp only []
    cases h2 : destructure H v with
    | error e => simp [writesOf_nil, writesOf_cons, Event.isWrite]
    | ok p =>
      obtain ⟨id, desc⟩ := p
      have hid : id = getProp "id".toList v := by
        cases v <;> simp_all [destructure]
      subst hid
      simp only []
      by_cases ht : truthy desc = true
      · simp only [ht, Bool.not_true, Bool.false_eq_true, if_false]
        cases h3 : (encodeDescription H desc).result with
        | error e =>
          left
          simp [writesOf_nil, writesOf_cons, writesOf_append, Event.isWrite, (henc desc).1]
        | ok hex =>
          obtain ⟨u, hu⟩ := (henc desc).2 hex h3
          simp only []
          cases h4 : toStr H.toPrimitiveMessage (getProp "id".toList v) with
          | error e =>
            left
            simp [writesOf_nil, writesOf_cons, writesOf_append, Event.isWrite, (henc desc).1]
          | ok label =>
            right
            refine ⟨by simp, v, label, toHex u, rfl, h4, Or.inr ⟨u, rfl⟩, ?_⟩
            simp [writesOf_nil, writesOf_cons, writesOf_append, Event.isWrite, (henc desc).1, hu]
      · simp only [ht, Bool.not_false, if_true]
        cases h4 : toStr H.toPrimitiveMessage (getProp "id".toList v) with
        | error e =>
          left
          simp [writesOf_nil, writesOf_cons, writesOf_append, Event.isWrite]
        | ok label =>
          right
          refine ⟨by simp, v, label, "EMPTY".toList, rfl, h4, Or.inl rfl, ?_⟩
          simp [writesOf_nil, writesOf_cons, writesOf_append, Event.isWrite]

theorem catchBlock_shape (H : Host) (line message : Str) :
    ((∃ e, (catchBlock H line message).result = .error e) ∧
      writesOf (catchBlock H line message).trace = []) ∨
    ((catchBlock H line message).result = .ok () ∧
      ∃ label,
        ((includes line quotedId = false ∧ label = "unknown".toList) ∨
          (includes line quotedId = true ∧ ∃ v, H.jsonParse line = .ok v ∧
            toStr H.toPrimitiveMessage (getProp "id".toList v) = .ok label)) ∧
        writesOf (catchBlock H line message).trace =
          [Event.stderr ("Error on story ".toList ++ label ++ ": ".toList ++ message ++ ['\n']),
           Event.stdout (label ++ ':' :: "ERROR".toList ++ ['\n'])]) := by
  simp only [catchBlock, Eff.bind_eq, Eff.bind, Eff.call, Eff.lift, Eff.pure, writeStdout,
    writeStderr]
  by_cases hinc : includes line quotedId = true
  · simp only [hinc, if_true]
    cases h1 : H.jsonParse line with
    | error e => simp [writesOf_nil, writesOf_cons, Event.isWrite]
    | ok v =>
      simp only []
      cases h2 : readId H v with
      | error e => simp [writesOf_nil, writesOf_cons, Event.isWrite]
      | ok errorId =>
        have hid : errorId = getProp "id".toList v := by
          cases v <;> simp_all [readId]
        subst hid
        simp only []
        cases h3 : toStr H.toPrimitiveMessage (getProp "id".toList v) with
        | error e => simp [writesOf_nil, writesOf_cons, Event.isWrite]
        | ok label =>
          right
          refine ⟨by simp, label, Or.inr ⟨trivial, v, rfl, h3⟩, ?_⟩
          simp [writesOf_nil, writesOf_cons, writesOf_append, Event.isWrite]
  · have hinc2 : includes line quotedId = false := by simpa using hinc
    simp only [hinc2, Bool.false_eq_true, if_false]
    right
    refine ⟨by simp [toStr], "unknown".toList, Or.inl ⟨trivial, rfl⟩, ?_⟩
    simp [writesOf_nil, writesOf_cons, writesOf_append, Event.isWrite, toStr]

theorem handler_shape (H : Host) (line : Str) :
    (writesOf (handler H line).trace = [] ∧
      ((trim line).isEmpty = false → (handler H line).uncaught ≠ none)) ∨
    ((handler H line).uncaught = none ∧
      ∃ v label payload, H.jsonParse line = .ok v ∧
        toStr H.toPrimitiveMessage (getProp "id".toList v) = .ok label ∧
        (payload = "EMPTY".toList ∨ ∃ u, payload = toHex u) ∧
        writesOf (handler H line).trace = [Event.stdout (label ++ ':' :: payload ++ ['\n'])]) ∨
    ((handler H line).uncaught = none ∧
      ∃ label message,
        ((includes line quotedId = false ∧ label = "unknown".toList) ∨
          (includes line quotedId = true ∧ ∃ v, H.jsonParse line = .ok v ∧
            toStr H.toPrimitiveMessage (getProp "id".toList v) = .ok label)) ∧
        writesOf (handler H line).trace =
          [Event.stderr ("Error on story ".toList ++ label ++ ": ".toList ++ message ++ ['\n']),
           Event.stdout (label ++ ':' :: "ERROR".toList ++ ['\n'])]) := by
  by_cases hb : (trim line).isEmpty = true
  · left
    simp [handler, hb, writesOf_nil]
  · have hb2 : (trim line).isEmpty = false := by simpa using hb
    rcases tryBlock_shape H line with ⟨⟨m, hm⟩, hw⟩ | ⟨hok, v, label, payload, hv, hl, hp, hw⟩
    · rcases catchBlock_shape H line m with ⟨⟨e, he⟩, hcw⟩ | ⟨hcok, label, hl, hcw⟩
      · left
        simp [handler, hb2, hm, he, writesOf_append, hw, hcw]
      · right; right
        refine ⟨by simp [handler, hb2, hm, hcok], label, m, hl, ?_⟩
        simp [handler, hb2, hm, hcok, writesOf_append, hw, hcw]
    · right; left
      refine ⟨by simp [handler, hb2, hok], v, label, payload, hv, hl, hp, ?_⟩
      simp [handler, hb2, hok, hw]

/-! ## Properties of the handler -/

theorem stdoutOf_append (a b : List Event) : stdoutOf (a ++ b) = stdoutOf a ++ stdoutOf b := by
  induction a with
  | nil => rfl
  | cons e t ih => cases e <;> simp [stdoutOf, ih]

theorem stdoutOf_writesOf (t : List Event) : stdoutOf (writesOf t) = stdoutOf t := by
  induction t with
  | nil => rfl
  | cons e t ih => cases e <;> simp [stdoutOf, writesOf_cons, Event.isWrite] <;> exact ih

theorem stderrOf_writesOf (t : List Event) : stderrOf (writesOf t) = stderrOf t := by
  induction t with
  | nil => rfl
  | cons e t ih => cases e <;> simp [stderrOf, writesOf_cons, Event.isWrite] <;> exact ih

theorem hexDigit_mem (n : Nat) : hexDigit n ∈ lowerHexChars := by
  have h : n % 16 < 16 := Nat.mod_lt _ (by decide)
  unfold hexDigit
  generalize n % 16 = k at h
  interval_cases k <;> decide

theorem toHex_mem (u : List Nat) : ∀ c ∈ toHex u, c ∈ lowerHexChars := by
  induction u with
  | nil => simp [toHex]
  | cons b bs ih =>
    intro c hc
    simp only [toHex, List.mem_cons] at hc
    rcases hc with rfl | rfl | hc
    · exact hexDigit_mem _
    · exact hexDigit_mem _
    · exact ih c hc

theorem toHex_length (u : List Nat) : (toHex u).length = 2 * u.length := by
  induction u with
  | nil => rfl
  | cons b bs ih => simp [toHex, ih]; omega

theorem matchesLowerHex_toHex (u : List Nat) :
    matchesLowerHex (toHex u) = !u.isEmpty := by
  cases u with
  | nil => rfl
  | cons b bs =>
    have h : matchesLowerHex (toHex (b :: bs)) = true := by
      simp only [matchesLowerHex, Bool.and_eq_true, List.all_eq_true]
      refine ⟨by simp [toHex], ?_⟩
      intro c hc
      have := toHex_mem (b :: bs) c hc
      simpa using this
    rw [h]
    rfl

/-- C6. A line that `trim` empties produces nothing: the handler returns at
once, with an empty trace (no write to either stream, no call of the JSON
reader or of the library) and no exception. -/
theorem C6_blank_line_is_skipped (H : Host) (line : Str)
    (hblank : (trim line).isEmpty = true) :
    handler H line = ⟨[], none⟩ := by
  simp only [handler, hblank, if_true]

/-- C6 on the whitespace-only line of two spaces, a tab and a space. -/
theorem C6_blank_line_is_skipped_witness :
    (trim "  \t ".toList).isEmpty = true ∧ handler refHost "  \t ".toList = ⟨[], none⟩ :=
  ⟨by decide, C6_blank_line_is_skipped refHost "  \t ".toList (by decide)⟩

/-- C3, as stated, fails: the non-blank line
`{"id":{"toString":1},"description":null}` parses as an object with a `null`
description, but its `id` has no string form: the template on line 23 throws,
the template on line 36 throws again inside the `catch` block, nothing is
written and the `TypeError` leaves the handler. -/
theorem C3_counterexample_id_without_string_form :
    (trim objectIdNullLine).isEmpty = false ∧
    refHost.jsonParse objectIdNullLine =
      .ok (JVal.obj [("id".toList, objectId), ("description".toList, JVal.null)]) ∧
    truthy (lookupMember "description".toList
      [("id".toList, objectId), ("description".toList, JVal.null)]) = false ∧
    toStr refHost.toPrimitiveMessage objectId = .error refHost.toPrimitiveMessage ∧
    stdoutOf (handler refHost objectIdNullLine).trace = [] ∧
    stderrOf (handler refHost objectIdNullLine).trace = [] ∧
    (handler refHost objectIdNullLine).uncaught = some refHost.toPrimitiveMessage :=
  ⟨by decide, by rfl, by rfl, by rfl, by decide, by decide, by decide⟩

/-- C3, amended. A non-blank line that parses as an object whose `description`
is falsy (`null`, `""`, absent, ...) and whose `id` has a string form `<id>`
makes the handler parse once and write exactly `<id>:EMPTY\n` to standard
output; nothing goes to standard error, the library is not called and no
exception leaves the handler. -/
theorem C3_falsy_description_writes_empty (H : Host) (line : Str)
    (members : List (Str × JVal)) (idText : Str)
    (hblank : (trim line).isEmpty = false)
    (hparse : H.jsonParse line = .ok (JVal.obj members))
    (hdesc : truthy (lookupMember "description".toList members) = false)
    (hid : toStr H.toPrimitiveMessage (lookupMember "id".toList members) = .ok idText) :
    handler H line = ⟨[Event.parse line, Event.stdout (idText ++ ":EMPTY\n".toList)], none⟩ ∧
    stdoutOf (handler H line).trace = idText ++ ":EMPTY\n".toList ∧
    stderrOf (handler H line).trace = [] := by
  have h : tryBlock H line =
      ⟨[Event.parse line, Event.stdout (idText ++ ":EMPTY\n".toList)], .ok ()⟩ := by
    simp only [tryBlock, Eff.bind_eq, Eff.bind, Eff.call, Eff.lift, hparse, destructure, getProp,
      hdesc, hid, writeStdout]
    rfl
  have hh : handler H line =
      ⟨[Event.parse line, Event.stdout (idText ++ ":EMPTY\n".toList)], none⟩ := by
    simp only [handler, hblank, h]
    rfl
  rw [hh]
  exact ⟨rfl, by simp [stdoutOf], by simp [stderrOf]⟩

/-- C3, amended, on the scenario line `{"id":"a1","description":null}`, which
gives `a1:EMPTY`. -/
theorem C3_falsy_description_writes_empty_witness :
    handler refHost sampleNullLine =
      ⟨[Event.parse sampleNullLine,
        Event.stdout "a1:EMPTY\n".toList], none⟩ :=
  (C3_falsy_description_writes_empty refHost sampleNullLine
    [("id".toList, JVal.str "a1".toList), ("description".toList, JVal.null)] "a1".toList
    (by decide) (by rfl) (by rfl) (by rfl)).1

/-- C4, as stated, fails: on the non-blank line
`{"id":{"toString":1},"description":"[]"}` the description is a non-empty
string that parses to a block list, conversion and encoding succeed, but the
`id` has no string form: the template on line 32 throws, the template on
line 36 throws again inside the `catch` block, nothing is written and the
`TypeError` leaves the handler. -/
theorem C4_counterexample_id_without_string_form :
    (trim objectIdBlocksLine).isEmpty = false ∧
    refHost.jsonParse objectIdBlocksLine =
      .ok (JVal.obj [("id".toList, objectId), ("description".toList, JVal.str "[]".toList)]) ∧
    refHost.jsonParse "[]".toList = .ok (JVal.arr []) ∧
    refHost.blocksToYDoc (JVal.arr []) = .ok [] ∧
    refHost.encodeStateAsUpdate [] = .ok [0, 0] ∧
    toStr refHost.toPrimitiveMessage objectId = .error refHost.toPrimitiveMessage ∧
    stdoutOf (handler refHost objectIdBlocksLine).trace = [] ∧
    stderrOf (handler refHost objectIdBlocksLine).trace = [] ∧
    (handler refHost objectIdBlocksLine).uncaught = some refHost.toPrimitiveMessage :=
  ⟨by decide, by rfl, by rfl, by rfl, by rfl, by rfl, by decide, by decide, by decide⟩

/-- C4, amended. A non-blank line that parses as an object whose `id` has a
string form `<id>` and whose `description` is a non-empty string `d`, where
`d` parses to `blocks`, the library builds `doc` from `blocks` and encodes it
as the bytes `u`, makes the handler write exactly `<id>:<hex>\n` to standard
output, `<hex>` being two lowercase hexadecimal digits per byte of `u`: every
character of it is in `[0-9a-f]`, and it matches `^[0-9a-f]+$` exactly when
`u` has at least one byte.  Nothing is written to standard error and no
exception leaves the handler. -/
theorem C4_valid_description_writes_hex (H : Host) (line : Str)
    (members : List (Str × JVal)) (d : Str) (blocks : JVal) (doc : H.Doc) (u : List Nat)
    (idText : Str)
    (hblank : (trim line).isEmpty = false)
    (hparse : H.jsonParse line = .ok (JVal.obj members))
    (hdesc : lookupMember "description".toList members = JVal.str d)
    (hd : d ≠ [])
    (hblocks : H.jsonParse d = .ok blocks)
    (hdoc : H.blocksToYDoc blocks = .ok doc)
    (hupdate : H.encodeStateAsUpdate doc = .ok u)
    (hid : toStr H.toPrimitiveMessage (lookupMember "id".toList members) = .ok idText) :
    handler H line =
      ⟨[Event.parse line, Event.parse d, Event.convert blocks, Event.encode,
        Event.stdout (idText ++ ':' :: toHex u ++ ['\n'])], none⟩ ∧
    stdoutOf (handler H line).trace = idText ++ ':' :: toHex u ++ ['\n'] ∧
    stderrOf (handler H line).trace = [] ∧
    (toHex u).length = 2 * u.length ∧
    (∀ c ∈ toHex u, c ∈ lowerHexChars) ∧
    matchesLowerHex (toHex u) = !u.isEmpty := by
  have ht : truthy (JVal.str d) = true := by
    cases d with
    | nil => exact absurd rfl hd
    | cons c cs => rfl
  have henc : encodeDescription H (JVal.str d) =
      ⟨[Event.parse d, Event.convert blocks, Event.encode], .ok (toHex u)⟩ := by
    simp only [encodeDescription, Eff.bind_eq, Eff.bind, Eff.call, Eff.lift, Eff.pure, toStr,
      hblocks, hdoc, hupdate]
    rfl
  have h : tryBlock H line =
      ⟨[Event.parse line, Event.parse d, Event.convert blocks, Event.encode,
        Event.stdout (idText ++ ':' :: toHex u ++ ['\n'])], .ok ()⟩ := by
    simp only [tryBlock, Eff.bind_eq, Eff.bind, Eff.call, Eff.lift, hparse, destructure, getProp,
      hdesc, ht, henc, hid, writeStdout]
    rfl
  have hh : handler H line =
      ⟨[Event.parse line, Event.parse d, Event.convert blocks, Event.encode,
        Event.stdout (idText ++ ':' :: toHex u ++ ['\n'])], none⟩ := by
    simp only [handler, hblank, h]
    rfl
  rw [hh]
  exact ⟨rfl, by simp [stdoutOf], by simp [stderrOf], toHex_length u, toHex_mem u,
    matchesLowerHex_toHex u⟩

/-- C4, amended, on the scenario line with id `b2` and a one-paragraph block
list. -/
theorem C4_valid_description_writes_hex_witness :
    handler refHost sampleBlockLine =
      ⟨[Event.parse sampleBlockLine, Event.parse sampleBlockText,
        Event.convert (JVal.arr sampleBlocks), Event.encode,
        Event.stdout "b2:0100\n".toList], none⟩ ∧
    matchesLowerHex (toHex [1, 0]) = true :=
  have h := C4_valid_description_writes_hex refHost sampleBlockLine
    [("id".toList, JVal.str "b2".toList), ("description".toList, JVal.str sampleBlockText)]
    sampleBlockText (JVal.arr sampleBlocks) sampleBlocks [1, 0] "b2".toList
    (by decide) (by rfl) (by rfl) (by decide) (by rfl) (by rfl) (by rfl) (by rfl)
  ⟨h.1, h.2.2.2.2.2⟩

theorem handler_of_try_error (H : Host) (line message : Str)
    (hblank : (trim line).isEmpty = false)
    (hfail : (tryBlock H line).result = .error message) :
    writesOf (handler H line).trace = writesOf (catchBlock H line message).trace ∧
    (handler H line).uncaught =
      (match (catchBlock H line message).result with
        | .ok _ => none
        | .error escaped => some escaped) := by
  have hw : writesOf (tryBlock H line).trace = [] := by
    rcases tryBlock_shape H line with ⟨_, hw⟩ | ⟨hok, _⟩
    · exact hw
    · rw [hfail] at hok; cases hok
  simp only [handler, hblank, hfail]
  cases (catchBlock H line message).result with
  | error e => simp [writesOf_append, hw]
  | ok u => simp [writesOf_append, hw]

/-- C5, as stated, fails: the line `{"\u0069d":"a1","description":"x"}` is an
object with `id` `"a1"` and a truthy description that is not JSON, and the
handler reports it under `unknown`, not under `a1`. -/
theorem C5_counterexample_escaped_id_key :
    refHost.jsonParse escapedIdLine =
      .ok (JVal.obj [("id".toList, JVal.str "a1".toList),
        ("description".toList, JVal.str "x".toList)]) ∧
    (encodeDescription refHost (JVal.str "x".toList)).result = .error parseErrorMessage ∧
    stdoutOf (handler refHost escapedIdLine).trace = "unknown:ERROR\n".toList ∧
    stdoutOf (handler refHost escapedIdLine).trace ≠ "a1:ERROR\n".toList :=
  ⟨by rfl, by rfl, by decide, by decide⟩

/-- C5, amended. Take a non-blank line that parses as an object with a truthy
`description` whose reading, conversion or encoding throws with message `m`.
When the raw line does not contain the text `"id"`, put `<label>` for the
literal `unknown`; when it does and the object's `id` has a string form, put
`<label>` for that string form.  In both cases the handler writes exactly the
diagnostic `Error on story <label>: m\n` to standard error and then exactly
`<label>:ERROR\n` to standard output, and returns normally. -/
theorem C5_failed_description_writes_error (H : Host) (line : Str)
    (members : List (Str × JVal)) (idText m : Str)
    (hblank : (trim line).isEmpty = false)
    (hparse : H.jsonParse line = .ok (JVal.obj members))
    (hdesc : truthy (lookupMember "description".toList members) = true)
    (hfail : (encodeDescription H (lookupMember "description".toList members)).result = .error m)
    (hid : includes line quotedId = true →
      toStr H.toPrimitiveMessage (lookupMember "id".toList members) = .ok idText) :
    writesOf (handler H line).trace =
      [Event.stderr ("Error on story ".toList ++
          (if includes line quotedId then idText else "unknown".toList) ++
          ": ".toList ++ m ++ ['\n']),
       Event.stdout ((if includes line quotedId then idText else "unknown".toList) ++
          ":ERROR\n".toList)] ∧
    (handler H line).uncaught = none := by
  have htry : (tryBlock H line).result = .error m := by
    simp only [tryBlock, Eff.bind_eq, Eff.bind, Eff.call, Eff.lift, hparse, destructure, getProp,
      hdesc, hfail, writeStdout]
    rfl
  obtain ⟨hw, hu⟩ := handler_of_try_error H line m hblank htry
  rw [hw, hu]
  have hcatch : (catchBlock H line m).result = .ok () := by
    simp only [catchBlock, Eff.bind_eq, Eff.bind, Eff.call, Eff.lift, Eff.pure, writeStdout,
      writeStderr]
    by_cases hinc : includes line quotedId = true
    · simp only [hinc, if_true, hparse, readId, getProp, hid hinc]
    · have hinc2 : includes line quotedId = false := by simpa using hinc
      simp only [hinc2, Bool.false_eq_true, if_false, toStr]
  rcases catchBlock_shape H line m with ⟨⟨e, he⟩, _⟩ | ⟨hcok, label, hl, hcw⟩
  · rw [hcatch] at he
    cases he
  · rw [hcw, hcok]
    rcases hl with ⟨hinc, rfl⟩ | ⟨hinc, v, hv, hlabel⟩
    · simp [hinc]
    · rw [hparse] at hv
      cases hv
      simp only [getProp] at hlabel
      rw [hid hinc] at hlabel
      cases hlabel
      simp [hinc]

/-- C5, amended, on two lines whose description `x` is not JSON:
`{"id":"a1","description":"x"}`, which holds the text `"id"` and is reported
under `a1`, and `{"\u0069d":{"toString":1},"description":"x"}`, which does not
and is reported under `unknown`. -/
theorem C5_failed_description_writes_error_witness :
    (includes badDescriptionLine quotedId = true ∧
      writesOf (handler refHost badDescriptionLine).trace =
        [Event.stderr ("Error on story a1: ".toList ++ parseErrorMessage ++ ['\n']),
         Event.stdout "a1:ERROR\n".toList] ∧
      (handler refHost badDescriptionLine).uncaught = none) ∧
    (includes escapedObjectIdLine quotedId = false ∧
      writesOf (handler refHost escapedObjectIdLine).trace =
        [Event.stderr ("Error on story unknown: ".toList ++ parseErrorMessage ++ ['\n']),
         Event.stdout "unknown:ERROR\n".toList] ∧
      (handler refHost escapedObjectIdLine).uncaught = none) :=
  ⟨⟨by decide,
    C5_failed_description_writes_error refHost badDescriptionLine
      [("id".toList, JVal.str "a1".toList), ("description".toList, JVal.str "x".toList)]
      "a1".toList parseErrorMessage (by decide) (by rfl) (by rfl) (by rfl) (fun _ => rfl)⟩,
   ⟨by decide,
    C5_failed_description_writes_error refHost escapedObjectIdLine
      [("id".toList, objectId), ("description".toList, JVal.str "x".toList)]
      [] parseErrorMessage (by decide) (by rfl) (by rfl) (by rfl)
      (fun h => absurd h (by decide))⟩⟩

/-- C9. A non-blank line that does not contain the text `"id"` and on which
the `try` block throws with message `m` makes the handler write exactly
`Error on story unknown: m\n` to standard error and then exactly
`unknown:ERROR\n` to standard output, and return normally. -/
theorem C9_no_id_text_reports_unknown (H : Host) (line m : Str)
    (hblank : (trim line).isEmpty = false)
    (hinc : includes line quotedId = false)
    (hfail : (tryBlock H line).result = .error m) :
    writesOf (handler H line).trace =
      [Event.stderr ("Error on story unknown: ".toList ++ m ++ ['\n']),
       Event.stdout "unknown:ERROR\n".toList] ∧
    stdoutOf (handler H line).trace = "unknown:ERROR\n".toList ∧
    stderrOf (handler H line).trace = "Error on story unknown: ".toList ++ m ++ ['\n'] ∧
    (handler H line).uncaught = none := by
  obtain ⟨hw, hu⟩ := handler_of_try_error H line m hblank hfail
  have hc : catchBlock H line m =
      ⟨[Event.stderr ("Error on story unknown: ".toList ++ m ++ ['\n']),
        Event.stdout "unknown:ERROR\n".toList], .ok ()⟩ := by
    simp only [catchBlock, Eff.bind_eq, Eff.bind, Eff.call, Eff.lift, Eff.pure, writeStdout,
      writeStderr, hinc, toStr]
    rfl
  rw [hc] at hw hu
  have hw2 : writesOf (handler H line).trace =
      [Event.stderr ("Error on story unknown: ".toList ++ m ++ ['\n']),
       Event.stdout "unknown:ERROR\n".toList] := by
    rw [hw]; rfl
  refine ⟨hw2, ?_, ?_, hu⟩
  · rw [← stdoutOf_writesOf, hw2]; simp [stdoutOf]
  · rw [← stderrOf_writesOf, hw2]; simp [stderrOf]

/-- C9 on the scenario line `not json`. -/
theorem C9_no_id_text_reports_unknown_witness :
    includes "not json".toList quotedId = false ∧
    (tryBlock refHost "not json".toList).result = .error parseErrorMessage ∧
    stdoutOf (handler refHost "not json".toList).trace = "unknown:ERROR\n".toList ∧
    (handler refHost "not json".toList).uncaught = none :=
  have h := C9_no_id_text_reports_unknown refHost "not json".toList parseErrorMessage
    (by decide) (by decide) (by rfl)
  ⟨by decide, by rfl, h.2.1, h.2.2.2⟩

theorem newline_not_mem_toHex (u : List Nat) : '\n' ∉ toHex u := by
  intro h
  have := toHex_mem u _ h
  revert this
  decide

theorem colon_not_mem_toHex (u : List Nat) : ':' ∉ toHex u := by
  intro h
  have := toHex_mem u _ h
  revert this
  decide

theorem count_newline_line (label payload : Str) (hp : '\n' ∉ payload) :
    (label ++ ':' :: payload ++ ['\n']).count '\n' = 1 ↔ '\n' ∉ label := by
  have h0 : payload.count '\n' = 0 := List.count_eq_zero.mpr hp
  have h1 : (label ++ ':' :: payload ++ ['\n']).count '\n' = label.count '\n' + 1 := by
    simp [List.count_append, List.count_cons, h0]
  rw [h1, ← List.count_eq_zero]
  omega

theorem getLast_line (label payload : Str) :
    (label ++ ':' :: payload ++ ['\n']).getLast? = some '\n' := by
  have h : label ++ ':' :: payload ++ ['\n'] = (label ++ ':' :: payload) ++ ['\n'] := by simp
  rw [h, List.getLast?_concat]

/-- C7, as stated, fails: the non-blank line `{"id":"a\nb","description":null}`
makes the handler write `a`, a newline, `b:EMPTY` and a newline, which is two
lines. -/
theorem C7_counterexample_newline_in_id :
    (trim newlineIdLine).isEmpty = false ∧
    stdoutOf (handler refHost newlineIdLine).trace = "a\nb:EMPTY\n".toList ∧
    (stdoutOf (handler refHost newlineIdLine).trace).count '\n' = 2 :=
  ⟨by decide, by decide, by decide⟩

/-- C7, amended. On a non-blank line from which the handler returns normally,
the handler writes to standard output once, the text `<label>:<payload>\n`:
`<payload>` holds no newline and `<label>` is the literal `unknown` or the
string form of the `id` of the parsed line.  The text ends with a newline,
and it holds exactly one newline if and only if `<label>` holds none. -/
theorem C7_stdout_is_label_payload_newline (H : Host) (line : Str)
    (hblank : (trim line).isEmpty = false)
    (hreturns : (handler H line).uncaught = none) :
    ∃ label payload,
      (writesOf (handler H line).trace).filter (fun e => e matches Event.stdout _) =
        [Event.stdout (label ++ ':' :: payload ++ ['\n'])] ∧
      stdoutOf (handler H line).trace = label ++ ':' :: payload ++ ['\n'] ∧
      (label = "unknown".toList ∨ ∃ v, H.jsonParse line = .ok v ∧
        toStr H.toPrimitiveMessage (getProp "id".toList v) = .ok label) ∧
      '\n' ∉ payload ∧
      (stdoutOf (handler H line).trace).getLast? = some '\n' ∧
      ((stdoutOf (handler H line).trace).count '\n' = 1 ↔ '\n' ∉ label) := by
  rcases handler_shape H line with ⟨_, hesc⟩ | ⟨_, v, label, payload, hv, hl, hp, hw⟩ |
    ⟨_, label, message, hl, hw⟩
  · exact absurd hreturns (hesc hblank)
  · have hpn : '\n' ∉ payload := by
      rcases hp with rfl | ⟨u, rfl⟩
      · decide
      · exact newline_not_mem_toHex u
    have hout : stdoutOf (handler H line).trace = label ++ ':' :: payload ++ ['\n'] := by
      rw [← stdoutOf_writesOf, hw]; simp [stdoutOf]
    refine ⟨label, payload, ?_, hout, Or.inr ⟨v, hv, hl⟩, hpn, ?_, ?_⟩
    · rw [hw]; simp
    · rw [hout]; exact getLast_line _ _
    · rw [hout]; exact count_newline_line label payload hpn
  · have hpn : '\n' ∉ "ERROR".toList := by decide
    have hout : stdoutOf (handler H line).trace = label ++ ':' :: "ERROR".toList ++ ['\n'] := by
      rw [← stdoutOf_writesOf, hw]; simp [stdoutOf]
    refine ⟨label, "ERROR".toList, ?_, hout, ?_, hpn, ?_, ?_⟩
    · rw [hw]; simp
    · rcases hl with ⟨_, rfl⟩ | ⟨_, v, hv, hlabel⟩
      · exact Or.inl rfl
      · exact Or.inr ⟨v, hv, hlabel⟩
    · rw [hout]; exact getLast_line _ _
    · rw [hout]; exact count_newline_line label _ hpn

/-- C7, amended, on the line whose `id` holds a newline. -/
theorem C7_stdout_is_label_payload_newline_witness :
    ∃ label payload,
      (writesOf (handler refHost newlineIdLine).trace).filter
          (fun e => e matches Event.stdout _) =
        [Event.stdout (label ++ ':' :: payload ++ ['\n'])] ∧
      stdoutOf (handler refHost newlineIdLine).trace = label ++ ':' :: payload ++ ['\n'] ∧
      (label = "unknown".toList ∨ ∃ v, refHost.jsonParse newlineIdLine = .ok v ∧
        toStr refHost.toPrimitiveMessage (getProp "id".toList v) = .ok label) ∧
      '\n' ∉ payload ∧
      (stdoutOf (handler refHost newlineIdLine).trace).getLast? = some '\n' ∧
      ((stdoutOf (handler refHost newlineIdLine).trace).count '\n' = 1 ↔ '\n' ∉ label) :=
  C7_stdout_is_label_payload_newline refHost newlineIdLine (by decide) (by decide)

theorem takeWhile_until (p : Char → Bool) (a rest : Str) (c : Char)
    (ha : ∀ x ∈ a, p x = true) (hc : p c = false) :
    (a ++ c :: rest).takeWhile p = a := by
  induction a with
  | nil => simp [List.takeWhile, hc]
  | cons x xs ih =>
    have hx : p x = true := ha x (List.mem_cons_self _ _)
    have hxs : ∀ y ∈ xs, p y = true := fun y hy => ha y (List.mem_cons_of_mem _ hy)
    simp [List.takeWhile, hx, ih hxs]

theorem payloadOf_line (label payload : Str) (hp : ':' ∉ payload) :
    payloadOf (label ++ ':' :: payload ++ ['\n']) = payload := by
  have hrev : (label ++ ':' :: payload ++ ['\n']).reverse =
      '\n' :: (payload.reverse ++ ':' :: label.reverse) := by simp
  have hall : ∀ x ∈ payload.reverse, (fun c => c != ':') x = true := by
    intro x hx
    have hx2 : x ∈ payload := List.mem_reverse.mp hx
    have : x ≠ ':' := fun h => hp (h ▸ hx2)
    simpa using this
  unfold payloadOf
  rw [hrev, List.drop_one, List.tail_cons,
    takeWhile_until (fun c => c != ':') payload.reverse label.reverse ':' hall (by simp),
    List.reverse_reverse]

theorem toHex_ne_of_upper (u : List Nat) (s : Str) (c : Char) (hc : c ∈ s)
    (hnot : c ∉ lowerHexChars) : toHex u ≠ s := by
  intro h
  exact hnot (toHex_mem u c (h ▸ hc))

/-- C10. Whenever the handler writes to standard output, the payload of what
it wrote (the text between the last `:` and the final newline) is the
hexadecimal text of the update bytes on the converted path, `EMPTY` on the
path of a falsy description and `ERROR` on the path through the `catch`
block.  No hexadecimal text of any byte list equals `EMPTY` or `ERROR`, or
holds `:` or a newline, so the three classes are disjoint. -/
theorem C10_payload_classes (H : Host) (line : Str)
    (hwrites : stdoutOf (handler H line).trace ≠ []) :
    ((∃ label u,
        writesOf (handler H line).trace = [Event.stdout (label ++ ':' :: toHex u ++ ['\n'])] ∧
        payloadOf (stdoutOf (handler H line).trace) = toHex u) ∨
      (∃ label,
        writesOf (handler H line).trace = [Event.stdout (label ++ ":EMPTY\n".toList)] ∧
        payloadOf (stdoutOf (handler H line).trace) = "EMPTY".toList) ∨
      (∃ label message,
        writesOf (handler H line).trace =
          [Event.stderr ("Error on story ".toList ++ label ++ ": ".toList ++ message ++ ['\n']),
           Event.stdout (label ++ ":ERROR\n".toList)] ∧
        payloadOf (stdoutOf (handler H line).trace) = "ERROR".toList)) ∧
    (∀ u, toHex u ≠ "EMPTY".toList ∧ toHex u ≠ "ERROR".toList ∧
      ':' ∉ toHex u ∧ '\n' ∉ toHex u) ∧
    "EMPTY".toList ≠ "ERROR".toList := by
  refine ⟨?_, fun u => ⟨toHex_ne_of_upper u _ 'E' (by decide) (by decide),
    toHex_ne_of_upper u _ 'E' (by decide) (by decide), colon_not_mem_toHex u,
    newline_not_mem_toHex u⟩, by decide⟩
  rcases handler_shape H line with ⟨hnone, _⟩ | ⟨_, v, label, payload, hv, hl, hp, hw⟩ |
    ⟨_, label, message, hl, hw⟩
  · exfalso
    apply hwrites
    rw [← stdoutOf_writesOf, hnone]
    rfl
  · have hout : stdoutOf (handler H line).trace = label ++ ':' :: payload ++ ['\n'] := by
      rw [← stdoutOf_writesOf, hw]; simp [stdoutOf]
    rcases hp with rfl | ⟨u, rfl⟩
    · right; left
      refine ⟨label, ?_, ?_⟩
      · rw [hw]; simp
      · rw [hout]; exact payloadOf_line label _ (by decide)
    · left
      exact ⟨label, u, hw, by rw [hout]; exact payloadOf_line label _ (colon_not_mem_toHex u)⟩
  · have hout : stdoutOf (handler H line).trace = label ++ ':' :: "ERROR".toList ++ ['\n'] := by
      rw [← stdoutOf_writesOf, hw]; simp [stdoutOf]
    right; right
    refine ⟨label, message, ?_, ?_⟩
    · rw [hw]; simp
    · rw [hout]; exact payloadOf_line label _ (by decide)

/-- C10 on the scenario line with id `b2`, whose payload is `0100`. -/
theorem C10_payload_classes_witness :
    stdoutOf (handler refHost sampleBlockLine).trace = "b2:0100\n".toList ∧
    payloadOf (stdoutOf (handler refHost sampleBlockLine).trace) = toHex [1, 0] ∧
    toHex [1, 0] ≠ "EMPTY".toList ∧ toHex [1, 0] ≠ "ERROR".toList :=
  have h := C10_payload_classes refHost sampleBlockLine (by decide)
  ⟨by decide, by decide, (h.2.1 [1, 0]).1, (h.2.1 [1, 0]).2.1⟩

theorem reparse_failure_escapes (H : Host) (line m : Str)
    (hblank : (trim line).isEmpty = false)
    (hinc : includes line quotedId = true)
    (hparse : H.jsonParse line = .error m) :
    handler H line = ⟨[Event.parse line, Event.parse line], some m⟩ := by
  have htry : tryBlock H line = ⟨[Event.parse line], .error m⟩ := by
    simp only [tryBlock, Eff.bind_eq, Eff.bind, Eff.call, hparse]
  have hcatch : catchBlock H line m = ⟨[Event.parse line], .error m⟩ := by
    simp only [catchBlock, Eff.bind_eq, Eff.bind, Eff.call, hinc, if_true, hparse]
  simp only [handler, hblank, htry, hcatch]
  rfl

/-- C1: the code at a failing input.  On the non-blank line `{"id":"a1"` the
`catch` block parses the line again, the `SyntaxError` leaves the handler,
nothing is written, and a run gets no further: the well-formed line that
follows is never handled. -/
theorem C1_exception_escapes_handler :
    (trim truncatedLine).isEmpty = false ∧
    (handler refHost truncatedLine).uncaught = some parseErrorMessage ∧
    stdoutOf (handler refHost truncatedLine).trace = [] ∧
    stderrOf (handler refHost truncatedLine).trace = [] ∧
    (run refHost [truncatedLine, sampleNullLine]).uncaught = some parseErrorMessage ∧
    stdoutOf (run refHost [truncatedLine, sampleNullLine]).trace = [] ∧
    stdoutOf (run refHost [sampleNullLine]).trace = "a1:EMPTY\n".toList :=
  ⟨by decide, by decide, by decide, by decide, by decide, by decide, by decide⟩

/-- C2: the code at a failing input.  The non-blank line
`{"id":"s9","description":` fails JSON parsing and holds the text `"id"`; the
handler writes no line at all to standard output, neither `unknown:ERROR` nor
`s9:ERROR`, and the exception of the second parse leaves it. -/
theorem C2_no_error_line_when_reparse_fails :
    (trim unfinishedLine).isEmpty = false ∧
    refHost.jsonParse unfinishedLine = .error parseErrorMessage ∧
    includes unfinishedLine quotedId = true ∧
    stdoutOf (handler refHost unfinishedLine).trace = [] ∧
    stdoutOf (handler refHost unfinishedLine).trace ≠ "unknown:ERROR\n".toList ∧
    (handler refHost unfinishedLine).uncaught = some parseErrorMessage :=
  ⟨by decide, by rfl, by decide, by decide, by decide, by decide⟩

end ConvertBlocknote
